import Mathlib

/-!
Shallow embedding of the table-browser backend (src/api/app.py and
src/api/main.py): identifier resolution (`parse_schema_table`), column-comment
label resolution (`fetch_table_comments`), the row-fetch endpoint
(`read_table`), the dynamic SQL builders of both variants, and the static
label dictionary of the `main.py` variant.

Python strings are modelled as Lean `String`/`List Char`.  Percent-decoding is
modelled at code-point level: a multi-byte UTF-8 escape sequence decodes to one
code point per byte, which agrees with CPython on membership in the safe
character set `[A-Za-z0-9_ .-]` (every such byte-derived code point is outside
the set in both models).
-/

namespace DbWeb

/-- Cell values delivered by the database driver (passed through untouched). -/
inductive Value where
  | null
  | str (s : String)
  | num (n : Int)
  | boolean (b : Bool)
  deriving DecidableEq

/-- The whitespace characters removed by Python `str.strip()` (ASCII part). -/
def isPySpace (c : Char) : Bool :=
  decide (c = ' ' ∨ c = '\t' ∨ c = '\n' ∨ c = '\r' ∨ c = '\u000B' ∨ c = '\u000C')

/-- Python `str.strip()` on a character list: drop leading and trailing
whitespace. -/
def pyStripList (cs : List Char) : List Char :=
  ((cs.dropWhile isPySpace).reverse.dropWhile isPySpace).reverse

/-- Python `str.strip()`. -/
def pyStrip (s : String) : String :=
  ⟨pyStripList s.data⟩

/-- Value of a hexadecimal digit, as accepted by `urllib.parse.unquote`. -/
def hexVal (c : Char) : Option Nat :=
  if '0' ≤ c ∧ c ≤ '9' then some (c.toNat - '0'.toNat)
  else if 'a' ≤ c ∧ c ≤ 'f' then some (c.toNat - 'a'.toNat + 10)
  else if 'A' ≤ c ∧ c ≤ 'F' then some (c.toNat - 'A'.toNat + 10)
  else none

/-- Scanner of `urllib.parse.unquote`, with explicit fuel (the fuel is an
upper bound on the number of characters left and only serves termination). -/
def pyUnquoteAux : Nat → List Char → List Char
  | 0, _ => []
  | _ + 1, [] => []
  | n + 1, c :: rest =>
    if c = '%' then
      match rest with
      | c1 :: c2 :: rest2 =>
        match hexVal c1, hexVal c2 with
        | some h1, some h2 => Char.ofNat (16 * h1 + h2) :: pyUnquoteAux n rest2
        | _, _ => c :: pyUnquoteAux n rest
      | _ => c :: pyUnquoteAux n rest
    else c :: pyUnquoteAux n rest

/-- Embedding of `urllib.parse.unquote`: replace each `%XX` escape (valid hex) by the
character with that code; invalid escapes are left untouched, `+` is not
decoded. -/
def pyUnquoteList (cs : List Char) : List Char :=
  pyUnquoteAux cs.length cs

/-- Membership in the allow-list character class of
`SAFE_NAME_RE = re.compile(r"^[A-Za-z0-9_ .-]+$")` (src/api/app.py line 48). -/
def isSafeChar (c : Char) : Bool :=
  decide (('A' ≤ c ∧ c ≤ 'Z') ∨ ('a' ≤ c ∧ c ≤ 'z') ∨ ('0' ≤ c ∧ c ≤ '9') ∨
    c = '_' ∨ c = ' ' ∨ c = '.' ∨ c = '-')

/-- The portion of the string that the `[A-Za-z0-9_ .-]+` part of the pattern
has to cover: everything, except that `$` may match just before a single
newline at the very end. -/
def safeMatchCore (cs : List Char) : List Char :=
  if cs.getLast? = some '\n' then cs.dropLast else cs

/-- Boolean form of `SAFE_NAME_RE.match(s)`, with CPython `re` semantics: the `$`
anchor also matches just before a single newline at the end of the string, so
a string consisting of one or more safe characters followed by exactly one
trailing newline is accepted as well. -/
def safeMatch (cs : List Char) : Bool :=
  !(safeMatchCore cs).isEmpty && (safeMatchCore cs).all isSafeChar

/-- Embedding of `full.split(".", 1)`: split at the first dot, `none` when no dot occurs. -/
def splitFirstDot : List Char → Option (List Char × List Char)
  | [] => none
  | c :: rest =>
    if c = '.' then some ([], rest)
    else (splitFirstDot rest).map (fun p => (c :: p.1, p.2))

/-- Lines 63-66 of src/api/app.py: split at the first dot when present,
otherwise default the schema to `dbo` and keep the whole string as table. -/
def splitOrDefault (f : List Char) : List Char × List Char :=
  match splitFirstDot f with
  | some q => q
  | none => ("dbo".data, f)

/-- Lines 56-58 of src/api/app.py: trim the raw path segment, then
percent-decode it. -/
def normalizeRaw (s : String) : List Char :=
  pyUnquoteList (pyStripList s.data)

/-- The function `parse_schema_table` (src/api/app.py lines 50-74).  `Except.error` models
the raised `ValueError` (surfaced as `InvalidIdentifier`), carrying the
source's message. -/
def parse_schema_table (full : String) : Except String (String × String) :=
  let f := normalizeRaw full
  if safeMatch f then
    let p := splitOrDefault f
    let schema := pyStripList p.1
    let table := pyStripList p.2
    if schema.isEmpty || table.isEmpty then Except.error "schema/table 不可為空"
    else Except.ok (⟨schema⟩, ⟨table⟩)
  else Except.error "table 名稱格式不合法"

/-- Python `dict` assignment `d[k] = v` on an insertion-ordered association
list: an existing key keeps its position and gets the new value, a new key is
appended at the end. -/
def pyDictInsert {α : Type} (d : List (String × α)) (k : String) (v : α) :
    List (String × α) :=
  if d.any (fun p => p.1 == k) then
    d.map (fun p => if p.1 == k then (p.1, v) else p)
  else d ++ [(k, v)]

/-- Python `d.get(k, dflt)`. -/
def pyDictGet {α : Type} (d : List (String × α)) (k : String) (dflt : α) : α :=
  match List.lookup k d with
  | some v => v
  | none => dflt

/-- The loop of `fetch_table_comments` (src/api/app.py lines 97-101): keep a
column only when its comment is truthy and still truthy after `strip()`, and
store the stripped comment.  A row is `(column_name, column_comment)` with
`none` for SQL NULL. -/
def buildCommentMap (rws : List (String × Option String)) : List (String × String) :=
  rws.foldl
    (fun m r =>
      match r.2 with
      | some c => if c ≠ "" ∧ pyStrip c ≠ "" then pyDictInsert m r.1 (pyStrip c) else m
      | none => m)
    []

/-- The database boundary: the two catalog/data queries the endpoint issues.
`comments` models the `sys.extended_properties` lookup of
`fetch_table_comments`; `rows` models executing the dynamic row-fetch
statement, returning column names and row tuples.  `Except.error` models a
raised driver exception. -/
structure DB where
  comments : String → String → Except String (List (String × Option String))
  rows : String → String → Int → Except String (List String × List (List Value))

/-- The function `fetch_table_comments` (src/api/app.py lines 77-101).  The body has no
exception handler: a failing catalog query propagates. -/
def fetch_table_comments (db : DB) (schema table : String) :
    Except String (List (String × String)) :=
  (db.comments schema table).map buildCommentMap

/-- A dynamic SQL statement as handed to the driver: query text plus named
bind parameters. -/
structure SQLQuery where
  text : String
  params : List (String × String)
  deriving DecidableEq

/-- The f-string SQL text of src/api/app.py lines 246-250: only the validated
integer `limit` is interpolated; `:schema` and `:table` are bind-parameter
placeholders handed to server-side `QUOTENAME`. -/
def read_table_sql (limit : Int) : String :=
  "\n    DECLARE @sql NVARCHAR(MAX) =\n        N\x27SELECT TOP (" ++ toString limit ++
    ") * FROM \x27 + QUOTENAME(:schema) + N\x27.\x27 + QUOTENAME(:table) + N\x27\x27;\n" ++
    "    EXEC sp_executesql @sql, N\x27@schema sysname, @table sysname\x27, " ++
    "@schema=:schema, @table=:table;\n    "

/-- The row-fetch statement of the `app.py` variant, as executed at line 254:
fixed text, identifiers passed as bind parameters. -/
def build_row_query_app (schema table : String) (limit : Int) : SQLQuery :=
  { text := read_table_sql limit, params := [("schema", schema), ("table", table)] }

/-- The row-fetch statement of the `main.py` variant (`get_table_data`,
src/api/main.py line 172): the raw table name is interpolated into the SQL
text inside brackets, with no bind parameters. -/
def build_row_query_main (table : String) : SQLQuery :=
  { text := "SELECT TOP 100 * FROM dbo.[" ++ table ++ "]", params := [] }

/-- The error taxonomy of the endpoint: the two `HTTPException(400)` raises of
`read_table` and a propagated database exception, each carrying its message. -/
inductive Err where
  | outOfRangeLimit (detail : String)
  | invalidIdentifier (detail : String)
  | queryFailed (detail : String)
  deriving DecidableEq

/-- The JSON payload of a successful `GET /api/table/{table_full}` response. -/
structure Response where
  table : String
  columns : List String
  rows : List (List (String × Value))
  deriving DecidableEq

/-- A database call issued while serving the request (used to state that
validation failures short-circuit before any call). -/
inductive DBCall where
  | commentsQuery (schema table : String)
  | rowQuery (schema table : String) (limit : Int)
  deriving DecidableEq

/-- Line 259 of src/api/app.py:
`display_cols = [comment_map.get(c, c) for c in cols]`. -/
def display_cols (comment_map : List (String × String)) (cols : List String) :
    List String :=
  cols.map (fun c => pyDictGet comment_map c c)

/-- Lines 263-267 of src/api/app.py: build one output row as a dict keyed by
display label (`d[c] = row[i]` over the enumerated labels). -/
def buildRow (labels : List String) (cells : List Value) : List (String × Value) :=
  (labels.zip cells).foldl (fun d p => pyDictInsert d p.1 p.2) []

/-- The endpoint handler `read_table` (src/api/app.py lines 231-269), with an explicit log of the
database calls it performs. -/
def read_table (db : DB) (table_full : String) (limit : Int) :
    Except Err Response × List DBCall :=
  if limit < 1 ∨ limit > 5000 then
    (Except.error (Err.outOfRangeLimit "limit 需介於 1~5000"), [])
  else
    match parse_schema_table table_full with
    | Except.error e => (Except.error (Err.invalidIdentifier e), [])
    | Except.ok (schema, table) =>
      match fetch_table_comments db schema table with
      | Except.error e =>
        (Except.error (Err.queryFailed e), [DBCall.commentsQuery schema table])
      | Except.ok comment_map =>
        match db.rows schema table limit with
        | Except.error e =>
          (Except.error (Err.queryFailed e),
            [DBCall.commentsQuery schema table, DBCall.rowQuery schema table limit])
        | Except.ok (cols, rws) =>
          let dcols := display_cols comment_map cols
          (Except.ok
            { table := schema ++ "." ++ table
              columns := dcols
              rows := rws.map (fun row => buildRow dcols row) },
            [DBCall.commentsQuery schema table, DBCall.rowQuery schema table limit])

/-- The row-fetch endpoint with its query parameter: `limit: int = 100` in the
handler signature, absent parameter meaning the default. -/
def read_table_endpoint (db : DB) (table_full : String) (limitParam : Option Int) :
    Except Err Response × List DBCall :=
  read_table db table_full (limitParam.getD 100)

/-- The static per-table label dictionary of src/api/main.py lines 8-106. -/
def COLUMN_NAME_MAP : List (String × List (String × String)) :=
  [ ("Orders",
      [ ("OrderID", "訂單編號"), ("CustomerID", "客戶代碼"), ("EmployeeID", "員工編號"),
        ("OrderDate", "訂單日期"), ("RequiredDate", "需求日期"), ("ShippedDate", "出貨日期"),
        ("ShipVia", "運送方式"), ("Freight", "運費"), ("ShipName", "收貨人"),
        ("ShipAddress", "收貨地址"), ("ShipCity", "收貨城市"), ("ShipRegion", "收貨地區"),
        ("ShipPostalCode", "郵遞區號"), ("ShipCountry", "收貨國家") ]),
    ("Order Details",
      [ ("OrderID", "訂單編號"), ("ProductID", "產品編號"), ("UnitPrice", "單價"),
        ("Quantity", "數量"), ("Discount", "折扣") ]),
    ("Customers",
      [ ("CustomerID", "客戶代碼"), ("CompanyName", "公司名稱"), ("ContactName", "聯絡人"),
        ("ContactTitle", "職稱"), ("Address", "地址"), ("City", "城市"),
        ("Region", "地區"), ("PostalCode", "郵遞區號"), ("Country", "國家"),
        ("Phone", "電話"), ("Fax", "傳真") ]),
    ("Employees",
      [ ("EmployeeID", "員工編號"), ("LastName", "姓"), ("FirstName", "名"),
        ("Title", "職稱"), ("TitleOfCourtesy", "稱謂"), ("BirthDate", "生日"),
        ("HireDate", "到職日"), ("Address", "地址"), ("City", "城市"),
        ("Region", "地區"), ("PostalCode", "郵遞區號"), ("Country", "國家"),
        ("HomePhone", "住家電話"), ("Extension", "分機"), ("Notes", "備註") ]),
    ("Products",
      [ ("ProductID", "產品編號"), ("ProductName", "產品名稱"), ("SupplierID", "供應商編號"),
        ("CategoryID", "產品類別"), ("QuantityPerUnit", "包裝規格"), ("UnitPrice", "單價"),
        ("UnitsInStock", "庫存數量"), ("UnitsOnOrder", "訂購中數量"),
        ("ReorderLevel", "補貨水位"), ("Discontinued", "是否停售") ]),
    ("Categories",
      [ ("CategoryID", "類別編號"), ("CategoryName", "類別名稱"), ("Description", "類別說明") ]),
    ("Suppliers",
      [ ("SupplierID", "供應商編號"), ("CompanyName", "公司名稱"), ("ContactName", "聯絡人"),
        ("ContactTitle", "職稱"), ("Address", "地址"), ("City", "城市"),
        ("Region", "地區"), ("PostalCode", "郵遞區號"), ("Country", "國家"),
        ("Phone", "電話"), ("Fax", "傳真"), ("HomePage", "公司網站") ]),
    ("Shippers",
      [ ("ShipperID", "貨運商編號"), ("CompanyName", "貨運公司"), ("Phone", "電話") ]) ]

/-- The per-row relabelling loop of `run_query` (src/api/main.py lines
145-151): `item[col_map.get(col, col)] = val` over `zip(columns, row)`. -/
def run_query_item (col_map : List (String × String)) (columns : List String)
    (row : List Value) : List (String × Value) :=
  (columns.zip row).foldl
    (fun item p => pyDictInsert item (pyDictGet col_map p.1 p.1) p.2) []

/-- The function `run_query` (src/api/main.py lines 135-153), after the driver returned
`columns` and `rows`: `col_map = COLUMN_NAME_MAP.get(table_name, {})` (with
`table_name=None` giving the default), then the relabelling loop per row. -/
def run_query (table_name : Option String) (columns : List String)
    (rows : List (List Value)) : List (List (String × Value)) :=
  let col_map := match table_name with
    | some t => pyDictGet COLUMN_NAME_MAP t []
    | none => []
  rows.map (fun row => run_query_item col_map columns row)

/-- A database with no tables: empty catalog answers, empty result sets. -/
def dbEmpty : DB :=
  { comments := fun _ _ => Except.ok []
    rows := fun _ _ _ => Except.ok ([], []) }

/-- The comment rows of the sample table: one commented column (the comment
padded with whitespace), one uncommented column, one whitespace-only comment. -/
def sampleCommentRows : List (String × Option String) :=
  [("OrderID", some " 訂單編號 "), ("CustomerID", none), ("Freight", some "   ")]

/-- A small concrete database used to instantiate the theorems. -/
def dbSample : DB :=
  { comments := fun _ _ => Except.ok sampleCommentRows
    rows := fun _ _ _ =>
      Except.ok (["OrderID", "CustomerID"],
        [[Value.num 1, Value.str "ALFKI"], [Value.num 2, Value.str "ANATR"]]) }

/-- A database that answers like `dbSample` for `dbo.Orders` at limit 100 and
fails every other query: it agrees with `dbSample` exactly where the request
`GET /api/table/dbo.Orders?limit=100` looks. -/
def dbSampleRestricted : DB :=
  { comments := fun s t =>
      if s = "dbo" ∧ t = "Orders" then dbSample.comments s t
      else Except.error "unavailable"
    rows := fun s t limit =>
      if s = "dbo" ∧ t = "Orders" ∧ limit = 100 then dbSample.rows s t limit
      else Except.error "unavailable" }

/-- A database whose metadata (extended-property) query raises. -/
def dbMetaFail : DB :=
  { comments := fun _ _ => Except.error "metadata boom"
    rows := fun _ _ _ =>
      Except.ok (["OrderID"], [[Value.num 1]]) }

/-! ### Lemmas about the Python-dict embedding -/

theorem lookup_map_replace {α : Type} (d : List (String × α)) (k : String) (v : α)
    (k2 : String) (hne : k2 ≠ k) :
    List.lookup k2 (d.map (fun p => if p.1 == k then (p.1, v) else p)) =
      List.lookup k2 d := by
  induction d with
  | nil => rfl
  | cons a d ih =>
    obtain ⟨ak, av⟩ := a
    simp only [List.map_cons]
    by_cases h : ak = k
    · subst h
      have h2 : (k2 == ak) = false := by rw [beq_eq_false_iff_ne]; exact hne
      rw [if_pos (beq_self_eq_true ak), List.lookup_cons, List.lookup_cons]
      simp only [h2]
      simpa using ih
    · have h3 : (ak == k) = false := by rw [beq_eq_false_iff_ne]; exact h
      rw [if_neg (by simp [h3]), List.lookup_cons, List.lookup_cons]
      by_cases h2 : k2 = ak
      · subst h2; simp
      · have h4 : (k2 == ak) = false := by rw [beq_eq_false_iff_ne]; exact h2
        simp only [h4]
        simpa using ih

theorem lookup_map_self {α : Type} (d : List (String × α)) (k : String) (v : α)
    (hany : d.any (fun p => p.1 == k) = true) :
    List.lookup k (d.map (fun p => if p.1 == k then (p.1, v) else p)) = some v := by
  induction d with
  | nil => simp at hany
  | cons a d ih =>
    obtain ⟨ak, av⟩ := a
    simp only [List.map_cons]
    by_cases h : ak = k
    · subst h
      rw [if_pos (beq_self_eq_true ak), List.lookup_cons]
      simp
    · have h3 : (ak == k) = false := by rw [beq_eq_false_iff_ne]; exact h
      have h4 : (k == ak) = false := by
        rw [beq_eq_false_iff_ne]
        exact fun e => h e.symm
      have htail : d.any (fun p => p.1 == k) = true := by
        simpa [h3] using hany
      rw [if_neg (by simp [h3]), List.lookup_cons]
      simp only [h4]
      simpa using ih htail

theorem lookup_pyDictInsert {α : Type} (d : List (String × α)) (k : String) (v : α)
    (k2 : String) :
    List.lookup k2 (pyDictInsert d k v) =
      if k2 = k then some v else List.lookup k2 d := by
  unfold pyDictInsert
  by_cases hany : d.any (fun p => p.1 == k) = true
  · rw [if_pos hany]
    by_cases hk : k2 = k
    · subst hk; rw [if_pos rfl]; exact lookup_map_self d k2 v hany
    · rw [if_neg hk]; exact lookup_map_replace d k v k2 hk
  · rw [if_neg hany, List.lookup_append]
    by_cases hk : k2 = k
    · subst hk
      have hnone : List.lookup k2 d = none := by
        rw [List.lookup_eq_none_iff]
        intro p hp
        simp only [List.any_eq_true, beq_iff_eq, not_exists, not_and] at hany
        rw [bne_iff_ne]
        exact fun e => hany p hp e.symm
      rw [hnone, if_pos rfl]
      simp
    · have h4 : (k2 == k) = false := by rw [beq_eq_false_iff_ne]; exact hk
      rw [if_neg hk]
      have : List.lookup k2 [(k, v)] = none := by simp [List.lookup_cons, h4]
      rw [this, Option.or_none]

theorem lookup_foldl_insert {α : Type} (pairs : List (String × α))
    (d : List (String × α)) (k : String) :
    List.lookup k (pairs.foldl (fun acc p => pyDictInsert acc p.1 p.2) d) =
      ((pairs.reverse.find? (fun p => p.1 == k)).map Prod.snd).or
        (List.lookup k d) := by
  induction pairs generalizing d with
  | nil => simp
  | cons p rest ih =>
    obtain ⟨pk, pv⟩ := p
    rw [List.foldl_cons, ih, List.reverse_cons, List.find?_append]
    cases hfq : rest.reverse.find? (fun p => p.1 == k) with
    | some q => simp [hfq]
    | none =>
      simp only [hfq, Option.none_or, List.find?_cons, List.find?_nil]
      rw [lookup_pyDictInsert]
      by_cases hk : k = pk
      · subst hk
        rw [if_pos rfl]
        simp
      · have h4 : (pk == k) = false := by
          rw [beq_eq_false_iff_ne]
          exact fun e => hk e.symm
        rw [if_neg hk]
        simp [h4]

/-- The value stored in a row dict under a key is the cell of the last column
bearing that display label. -/
theorem lookup_buildRow (labels : List String) (cells : List Value) (k : String) :
    List.lookup k (buildRow labels cells) =
      ((labels.zip cells).reverse.find? (fun p => p.1 == k)).map Prod.snd := by
  unfold buildRow
  rw [lookup_foldl_insert]
  simp

theorem foldl_insert_of_disjoint {α : Type} (pairs : List (String × α)) :
    ∀ d : List (String × α),
      (∀ p ∈ pairs, ∀ q ∈ d, q.1 ≠ p.1) →
      (pairs.map Prod.fst).Nodup →
      pairs.foldl (fun acc p => pyDictInsert acc p.1 p.2) d = d ++ pairs := by
  induction pairs with
  | nil => intro d _ _; simp
  | cons p rest ih =>
    intro d hdis hnd
    obtain ⟨pk, pv⟩ := p
    have hstep : pyDictInsert d pk pv = d ++ [(pk, pv)] := by
      unfold pyDictInsert
      rw [if_neg]
      intro hany
      simp only [List.any_eq_true, beq_iff_eq] at hany
      obtain ⟨q, hq, hqk⟩ := hany
      exact hdis (pk, pv) (List.mem_cons_self _ _) q hq hqk
    rw [List.foldl_cons, hstep, ih (d ++ [(pk, pv)])]
    · simp
    · intro p2 hp2 q hq
      rcases List.mem_append.mp hq with hq | hq
      · exact hdis p2 (List.mem_cons_of_mem _ hp2) q hq
      · have : q = (pk, pv) := by simpa using hq
        subst this
        simp only [List.map_cons, List.nodup_cons] at hnd
        intro e
        have e2 : pk = p2.1 := e
        exact hnd.1 (by rw [e2]; exact List.mem_map_of_mem Prod.fst hp2)
    · simp only [List.map_cons, List.nodup_cons] at hnd
      exact hnd.2

/-- With pairwise-distinct labels the row dict is exactly the label-cell zip. -/
theorem buildRow_of_nodup (labels : List String) (cells : List Value)
    (hnd : labels.Nodup) (hlen : labels.length = cells.length) :
    buildRow labels cells = labels.zip cells := by
  unfold buildRow
  rw [foldl_insert_of_disjoint]
  · simp
  · intro p _ q hq
    simp at hq
  · rw [List.map_fst_zip labels cells (le_of_eq hlen)]
    exact hnd

theorem length_pyDictInsert {α : Type} (d : List (String × α)) (k : String) (v : α) :
    (pyDictInsert d k v).length ≤ d.length + 1 := by
  unfold pyDictInsert
  split
  · simp
  · simp

theorem length_foldl_insert {α : Type} (pairs : List (String × α)) :
    ∀ d : List (String × α),
      (pairs.foldl (fun acc p => pyDictInsert acc p.1 p.2) d).length ≤
        d.length + pairs.length := by
  induction pairs with
  | nil => intro d; simp
  | cons p rest ih =>
    intro d
    rw [List.foldl_cons]
    calc (rest.foldl (fun acc p => pyDictInsert acc p.1 p.2) (pyDictInsert d p.1 p.2)).length
        ≤ (pyDictInsert d p.1 p.2).length + rest.length := ih _
      _ ≤ (d.length + 1) + rest.length :=
          Nat.add_le_add_right (length_pyDictInsert d p.1 p.2) _
      _ = d.length + (p :: rest).length := by simp [Nat.add_assoc, Nat.add_comm 1]

/-- A row dict never has more entries than there are columns. -/
theorem length_buildRow (labels : List String) (cells : List Value) :
    (buildRow labels cells).length ≤ labels.length := by
  unfold buildRow
  calc ((labels.zip cells).foldl (fun acc p => pyDictInsert acc p.1 p.2) []).length
      ≤ ([] : List (String × Value)).length + (labels.zip cells).length :=
        length_foldl_insert _ _
    _ ≤ labels.length := by simp [List.length_zip]

/-! ### Lemmas about the `strip()` embedding -/

theorem head?_dropWhile_eq_some {α : Type} {p : α → Bool} {l : List α} {c : α}
    (h : (l.dropWhile p).head? = some c) : p c = false := by
  have hw := List.head?_dropWhile_not p l
  rw [h] at hw
  exact hw

theorem getLast?_pyStripList {cs : List Char} {c : Char}
    (h : (pyStripList cs).getLast? = some c) : isPySpace c = false := by
  unfold pyStripList at h
  rw [List.getLast?_reverse] at h
  exact head?_dropWhile_eq_some h

theorem head?_pyStripList {cs : List Char} {c : Char}
    (h : (pyStripList cs).head? = some c) : isPySpace c = false := by
  unfold pyStripList at h
  rw [List.head?_reverse] at h
  obtain ⟨t, ht⟩ :=
    List.dropWhile_suffix (l := (cs.dropWhile isPySpace).reverse) (p := isPySpace)
  have h2 : ((cs.dropWhile isPySpace).reverse).getLast? = some c := by
    rw [← ht, List.getLast?_append, h, Option.or_some]
  rw [List.getLast?_reverse] at h2
  exact head?_dropWhile_eq_some h2

theorem dropWhile_eq_self_of_head {α : Type} {p : α → Bool} {l : List α}
    (h : ∀ c, l.head? = some c → p c = false) : l.dropWhile p = l := by
  cases l with
  | nil => rfl
  | cons a l =>
    have ha := h a rfl
    simp [List.dropWhile_cons, ha]

/-- Stripping is idempotent: a stripped string has no surrounding whitespace
left to remove. -/
theorem pyStripList_idem (cs : List Char) :
    pyStripList (pyStripList cs) = pyStripList cs := by
  cases hh : (pyStripList cs).head? with
  | none =>
    have he : pyStripList cs = [] := by
      cases hc : pyStripList cs with
      | nil => rfl
      | cons a l => rw [hc] at hh; simp at hh
    rw [he]
    rfl
  | some c =>
    have h1 : (pyStripList cs).dropWhile isPySpace = pyStripList cs := by
      apply dropWhile_eq_self_of_head
      intro c' hc'
      exact head?_pyStripList hc'
    have h2 : (pyStripList cs).reverse.dropWhile isPySpace = (pyStripList cs).reverse := by
      apply dropWhile_eq_self_of_head
      intro c' hc'
      rw [List.head?_reverse] at hc'
      exact getLast?_pyStripList hc'
    show (((pyStripList cs).dropWhile isPySpace).reverse.dropWhile isPySpace).reverse =
      pyStripList cs
    rw [h1, h2, List.reverse_reverse]

theorem pyStrip_idem (s : String) : pyStrip (pyStrip s) = pyStrip s :=
  congrArg String.mk (pyStripList_idem s.data)

/-! ### Characterization of the allow-list regex match -/

/-- What `SAFE_NAME_RE.match` accepts, spelt out: either every character is in
the allow-list class (nonempty string), or the string is a nonempty allow-list
string followed by exactly one trailing newline (the CPython `$` quirk). -/
theorem safeMatch_iff (cs : List Char) :
    safeMatch cs = true ↔
      ((cs ≠ [] ∧ ∀ c ∈ cs, isSafeChar c = true) ∨
        (∃ g, cs = g ++ ['\n'] ∧ g ≠ [] ∧ ∀ c ∈ g, isSafeChar c = true)) := by
  unfold safeMatch safeMatchCore
  by_cases hl : cs.getLast? = some '\n'
  · rw [if_pos hl]
    have hne : cs ≠ [] := by
      intro e
      rw [e] at hl
      simp at hl
    have hv : cs.getLast hne = '\n' := by
      have hg := List.getLast?_eq_getLast cs hne
      rw [hl] at hg
      exact (Option.some.inj hg).symm
    have hcs : cs.dropLast ++ ['\n'] = cs := by
      rw [← hv]
      exact List.dropLast_concat_getLast hne
    constructor
    · intro h
      simp only [Bool.and_eq_true, Bool.not_eq_true', List.isEmpty_eq_false,
        List.all_eq_true] at h
      right
      exact ⟨cs.dropLast, hcs.symm, h.1, h.2⟩
    · rintro (⟨hne2, hall⟩ | ⟨g, hg, hgne, hgall⟩)
      · exfalso
        have hmem : '\n' ∈ cs := List.mem_of_getLast?_eq_some hl
        exact absurd (hall '\n' hmem) (by decide)
      · have hgd : g = cs.dropLast := by
          rw [hg, List.dropLast_concat]
        simp only [Bool.and_eq_true, Bool.not_eq_true', List.isEmpty_eq_false,
          List.all_eq_true]
        rw [← hgd]
        exact ⟨hgne, hgall⟩
  · rw [if_neg hl]
    constructor
    · intro h
      simp only [Bool.and_eq_true, Bool.not_eq_true', List.isEmpty_eq_false,
        List.all_eq_true] at h
      exact Or.inl h
    · rintro (⟨hne2, hall⟩ | ⟨g, hg, hgne, hgall⟩)
      · simp only [Bool.and_eq_true, Bool.not_eq_true', List.isEmpty_eq_false,
          List.all_eq_true]
        exact ⟨hne2, hall⟩
      · exfalso
        apply hl
        rw [hg, List.getLast?_concat]

/-! ### Lemmas about splitting at the first dot -/

theorem splitFirstDot_eq_none {cs : List Char} (h : '.' ∉ cs) :
    splitFirstDot cs = none := by
  induction cs with
  | nil => rfl
  | cons c rest ih =>
    have hc : ¬ c = '.' := fun e => h (e ▸ List.mem_cons_self c rest)
    have hrest : '.' ∉ rest := fun e => h (List.mem_cons_of_mem c e)
    simp [splitFirstDot, hc, ih hrest]

theorem splitFirstDot_eq_some {cs : List Char} (h : '.' ∈ cs) :
    splitFirstDot cs =
      some (cs.takeWhile (fun c => !(c == '.')), (cs.dropWhile (fun c => !(c == '.'))).tail) := by
  induction cs with
  | nil => simp at h
  | cons c rest ih =>
    by_cases hc : c = '.'
    · subst hc
      simp [splitFirstDot, List.takeWhile_cons, List.dropWhile_cons]
    · have hrest : '.' ∈ rest := by
        rcases List.mem_cons.mp h with e | e
        · exact absurd e.symm hc
        · exact e
      have hb : (c == '.') = false := by rw [beq_eq_false_iff_ne]; exact hc
      simp [splitFirstDot, hc, ih hrest, List.takeWhile_cons, List.dropWhile_cons, hb]

/-! ### Further helper lemmas -/

theorem parse_schema_table_eq (s : String) :
    parse_schema_table s =
      if safeMatch (normalizeRaw s) = true then
        if (pyStripList (splitOrDefault (normalizeRaw s)).1).isEmpty ||
            (pyStripList (splitOrDefault (normalizeRaw s)).2).isEmpty then
          Except.error "schema/table 不可為空"
        else
          Except.ok (⟨pyStripList (splitOrDefault (normalizeRaw s)).1⟩,
            ⟨pyStripList (splitOrDefault (normalizeRaw s)).2⟩)
      else Except.error "table 名稱格式不合法" := rfl

theorem foldl_comment_skip :
    ∀ rws : List (String × Option String),
      (∀ r ∈ rws, ∀ c, r.2 = some c → pyStrip c = "") →
      ∀ acc : List (String × String),
        rws.foldl
          (fun m r =>
            match r.2 with
            | some c =>
              if c ≠ "" ∧ pyStrip c ≠ "" then pyDictInsert m r.1 (pyStrip c) else m
            | none => m) acc = acc := by
  intro rws
  induction rws with
  | nil => intro _ acc; rfl
  | cons r rest ih =>
    intro h acc
    rw [List.foldl_cons]
    have hstep : (match r.2 with
        | some c =>
          if c ≠ "" ∧ pyStrip c ≠ "" then pyDictInsert acc r.1 (pyStrip c) else acc
        | none => acc) = acc := by
      cases hr : r.2 with
      | none => rfl
      | some c =>
        have hc := h r (List.mem_cons_self r rest) c hr
        simp [hc]
    rw [hstep]
    exact ih (fun r2 hr2 => h r2 (List.mem_cons_of_mem r hr2)) acc

/-- A metadata result with only NULL, empty or whitespace-only comments yields
the empty mapping. -/
theorem buildCommentMap_eq_nil (rws : List (String × Option String))
    (h : ∀ r ∈ rws, ∀ c, r.2 = some c → pyStrip c = "") :
    buildCommentMap rws = [] :=
  foldl_comment_skip rws h []

/-- With an empty label map every column passes through unchanged. -/
theorem display_cols_nil (cols : List String) : display_cols [] cols = cols := by
  simp [display_cols, pyDictGet]

theorem mem_pyDictInsert {α : Type} {kv : String × α} {d : List (String × α)}
    {k : String} {v : α} (h : kv ∈ pyDictInsert d k v) :
    kv ∈ d ∨ kv = (k, v) := by
  unfold pyDictInsert at h
  split at h
  · obtain ⟨q, hq, hfq⟩ := List.mem_map.mp h
    by_cases hqk : q.1 = k
    · right
      rw [if_pos (by simpa using hqk)] at hfq
      rw [← hfq, hqk]
    · left
      rw [if_neg (by simpa using hqk)] at hfq
      rw [← hfq]
      exact hq
  · rcases List.mem_append.mp h with h2 | h2
    · exact Or.inl h2
    · right
      simpa using h2

theorem mem_buildCommentMap_aux (P : String × String → Prop) :
    ∀ (rws : List (String × Option String)) (acc : List (String × String)),
      (∀ kv ∈ acc, P kv) →
      (∀ (name : String) (c : String),
        (name, some c) ∈ rws → c ≠ "" → pyStrip c ≠ "" → P (name, pyStrip c)) →
      ∀ kv ∈ rws.foldl
          (fun m r =>
            match r.2 with
            | some c =>
              if c ≠ "" ∧ pyStrip c ≠ "" then pyDictInsert m r.1 (pyStrip c) else m
            | none => m) acc, P kv := by
  intro rws
  induction rws with
  | nil => intro acc hacc _ kv hkv; exact hacc kv hkv
  | cons r rest ih =>
    intro acc hacc hins kv hkv
    rw [List.foldl_cons] at hkv
    refine ih _ ?_ (fun name c hmem => hins name c (List.mem_cons_of_mem r hmem)) kv hkv
    intro kv2 hkv2
    cases hr : r.2 with
    | none =>
      rw [hr] at hkv2
      exact hacc kv2 hkv2
    | some c =>
      simp only [hr] at hkv2
      by_cases hcond : c ≠ "" ∧ pyStrip c ≠ ""
      · rw [if_pos hcond] at hkv2
        rcases mem_pyDictInsert hkv2 with h2 | h2
        · exact hacc kv2 h2
        · subst h2
          refine hins r.1 c ?_ hcond.1 hcond.2
          have : (r.1, some c) = r := by
            rw [← hr]
          rw [this]
          exact List.mem_cons_self r rest
      · rw [if_neg hcond] at hkv2
        exact hacc kv2 hkv2

/-- Everything in the comment map is the stripped form of an actual nonblank
stored comment. -/
theorem mem_buildCommentMap (rws : List (String × Option String))
    {kv : String × String} (h : kv ∈ buildCommentMap rws) :
    ∃ c, (kv.1, some c) ∈ rws ∧ pyStrip c ≠ "" ∧ kv.2 = pyStrip c := by
  refine mem_buildCommentMap_aux
    (fun kv => ∃ c, (kv.1, some c) ∈ rws ∧ pyStrip c ≠ "" ∧ kv.2 = pyStrip c)
    rws [] (by intro kv2 hkv2; simp at hkv2) ?_ kv h
  intro name c hmem _ hstrip
  exact ⟨c, hmem, hstrip, rfl⟩

/-! ### Claim theorems -/

/-- Claim C1, counterexample. The claim says every identifier whose trimmed,
percent-decoded form contains a character outside `[A-Za-z0-9_ .-]` fails with
`InvalidIdentifier`.  The raw identifier `"Orders%0A"` decodes to
`"Orders\n"`, which contains the newline character — outside the allow-list —
yet `parse_schema_table` succeeds (CPython's `$` matches before a single
trailing newline), returning schema `dbo` and table `Orders`. -/
theorem parse_schema_table_trailing_newline_cex :
    (∃ c ∈ normalizeRaw "Orders%0A", isSafeChar c = false) ∧
    parse_schema_table "Orders%0A" = Except.ok ("dbo", "Orders") := by
  constructor
  · exact ⟨'\n', by decide, by decide⟩
  · rfl

/-- Claim C1 (amended). `resolve` fails with `InvalidIdentifier` exactly when
the trimmed, percent-decoded identifier fails the allow-list test — where,
owing to CPython's `$` semantics, a nonempty all-safe string followed by one
trailing newline is also accepted — or the schema or table portion obtained by
splitting at the first dot (default schema `dbo` when no dot) is empty after
trimming.  On such failures, for any in-range limit, the endpoint answers
`InvalidIdentifier` and performs no database call; all other inputs resolve
successfully. -/
theorem parse_schema_table_failure_characterization (s : String) :
    ((∃ e, parse_schema_table s = Except.error e) ↔
      (¬ ((normalizeRaw s ≠ [] ∧ ∀ c ∈ normalizeRaw s, isSafeChar c = true) ∨
          (∃ g, normalizeRaw s = g ++ ['\n'] ∧ g ≠ [] ∧
            ∀ c ∈ g, isSafeChar c = true)) ∨
        pyStripList (splitOrDefault (normalizeRaw s)).1 = [] ∨
        pyStripList (splitOrDefault (normalizeRaw s)).2 = [])) ∧
    (∀ (db : DB) (limit : Int), 1 ≤ limit → limit ≤ 5000 →
      (∃ e, parse_schema_table s = Except.error e) →
      ∃ msg, read_table db s limit =
        (Except.error (Err.invalidIdentifier msg), [])) := by
  constructor
  · rw [parse_schema_table_eq, ← safeMatch_iff]
    by_cases h1 : safeMatch (normalizeRaw s) = true
    · rw [if_pos h1]
      by_cases h2 : ((pyStripList (splitOrDefault (normalizeRaw s)).1).isEmpty ||
          (pyStripList (splitOrDefault (normalizeRaw s)).2).isEmpty) = true
      · rw [if_pos h2]
        constructor
        · intro _
          right
          simpa [List.isEmpty_iff] using h2
        · intro _
          exact ⟨_, rfl⟩
      · rw [if_neg h2]
        constructor
        · rintro ⟨e, he⟩
          exact Except.noConfusion he
        · rintro (hno | hempty | hempty)
          · exact absurd h1 hno
          · exact absurd (by simp [List.isEmpty_iff, hempty]) h2
          · exact absurd (by simp [List.isEmpty_iff, hempty]) h2
    · rw [if_neg h1]
      constructor
      · intro _
        exact Or.inl h1
      · intro _
        exact ⟨_, rfl⟩
  · intro db limit hlo hhi hfail
    obtain ⟨e, he⟩ := hfail
    refine ⟨e, ?_⟩
    unfold read_table
    rw [if_neg (by omega), he]

/-- Witness for the amended C1, at the spec's own example of an injection
attempt and at an in-range limit. -/
theorem parse_schema_table_failure_characterization_witness :
    ∃ msg, read_table dbEmpty "Orders; DROP TABLE x" 100 =
      (Except.error (Err.invalidIdentifier msg), []) :=
  (parse_schema_table_failure_characterization "Orders; DROP TABLE x").2 dbEmpty 100
    (by decide) (by decide) ⟨"table 名稱格式不合法", rfl⟩

/-- Claim C2, counterexample. The claim says no variant ever concatenates the
user identifier into the SQL text.  In the `main.py` variant the query text is
a function of the raw table name — a bracket-containing table name escapes the
client-side brackets wholesale — and no bind parameters are used. -/
theorem build_row_query_main_concatenates_cex :
    (build_row_query_main "x]; DROP TABLE y--").text ≠
      (build_row_query_main "x").text ∧
    (build_row_query_main "x]; DROP TABLE y--").params = [] ∧
    (build_row_query_main "x]; DROP TABLE y--").text =
      "SELECT TOP 100 * FROM dbo.[x]; DROP TABLE y--]" := by
  exact ⟨by decide, rfl, rfl⟩

/-- Claim C2 (amended). In the `app.py` variant the row-fetch query text is
independent of the user-supplied schema and table — they are passed only as
bind parameters to the server-side `QUOTENAME` step — while the `main.py`
variant concatenates the raw table name into the SQL text (see the
counterexample). -/
theorem build_row_query_app_parameterized (s t s2 t2 : String) (limit : Int) :
    (build_row_query_app s t limit).text = (build_row_query_app s2 t2 limit).text ∧
    (build_row_query_app s t limit).params = [("schema", s), ("table", t)] :=
  ⟨rfl, rfl⟩

/-- Claim C3. `limit` defaults to 100 when the query parameter is absent, and
any limit outside [1, 5000] makes the endpoint fail with the out-of-range
bad-request error, uniformly in the database and the identifier — hence before
parsing the identifier, building any query, or issuing any database call (the
call log is empty). -/
theorem read_table_limit_validation :
    (∀ (db : DB) (id : String),
      read_table_endpoint db id none = read_table db id 100) ∧
    (∀ (db : DB) (id : String) (limit : Int), limit < 1 ∨ limit > 5000 →
      read_table db id limit =
        (Except.error (Err.outOfRangeLimit "limit 需介於 1~5000"), [])) := by
  constructor
  · intro db id
    rfl
  · intro db id limit h
    unfold read_table
    rw [if_pos h]

/-- Witness for C3 at the spec's example limits 0, 5001 and -3. -/
theorem read_table_limit_validation_witness :
    read_table dbEmpty "dbo.Orders" 0 =
      (Except.error (Err.outOfRangeLimit "limit 需介於 1~5000"), []) ∧
    read_table dbEmpty "not;an;identifier" 5001 =
      (Except.error (Err.outOfRangeLimit "limit 需介於 1~5000"), []) ∧
    read_table dbEmpty "dbo.Orders" (-3) =
      (Except.error (Err.outOfRangeLimit "limit 需介於 1~5000"), []) :=
  ⟨read_table_limit_validation.2 dbEmpty "dbo.Orders" 0 (Or.inl (by decide)),
   read_table_limit_validation.2 dbEmpty "not;an;identifier" 5001 (Or.inr (by decide)),
   read_table_limit_validation.2 dbEmpty "dbo.Orders" (-3) (Or.inl (by decide))⟩

/-- A database whose comments are NULL or whitespace-only (so the comment map
degrades to empty) but whose row query succeeds. -/
def dbNoComments : DB :=
  { comments := fun _ _ => Except.ok [("OrderID", none), ("CustomerID", some "  ")]
    rows := fun _ _ _ =>
      Except.ok (["OrderID", "CustomerID"], [[Value.num 1, Value.str "ALFKI"]]) }

/-- Claim C4, counterexample. The claim says a failing metadata lookup is never
surfaced and row delivery proceeds with physical names.  With a database whose
comment query raises, `read_table` surfaces `QueryFailed` after the metadata
call and delivers no rows: `fetch_table_comments` has no exception handler. -/
theorem read_table_metadata_failure_surfaced_cex :
    read_table dbMetaFail "dbo.Orders" 100 =
      (Except.error (Err.queryFailed "metadata boom"),
        [DBCall.commentsQuery "dbo" "Orders"]) := rfl

/-- Claim C4 (amended). A metadata lookup that finds no usable column comments
(every comment NULL, empty or whitespace-only) is not an error: it yields the
empty mapping and rows are delivered with the physical column names unchanged.
A metadata query that raises, however, propagates as `QueryFailed` and blocks
row delivery. -/
theorem read_table_metadata_graceful_amended :
    (∀ (db : DB) (id : String) (limit : Int) (s t : String)
      (rws : List (String × Option String)) (cols : List String)
      (rowsv : List (List Value)),
      ¬ (limit < 1 ∨ limit > 5000) →
      parse_schema_table id = Except.ok (s, t) →
      db.comments s t = Except.ok rws →
      (∀ r ∈ rws, ∀ c, r.2 = some c → pyStrip c = "") →
      db.rows s t limit = Except.ok (cols, rowsv) →
      fetch_table_comments db s t = Except.ok [] ∧
      read_table db id limit =
        (Except.ok
          { table := s ++ "." ++ t
            columns := cols
            rows := rowsv.map (fun row => buildRow cols row) },
          [DBCall.commentsQuery s t, DBCall.rowQuery s t limit])) ∧
    (∀ (db : DB) (id : String) (limit : Int) (s t : String) (emsg : String),
      ¬ (limit < 1 ∨ limit > 5000) →
      parse_schema_table id = Except.ok (s, t) →
      db.comments s t = Except.error emsg →
      read_table db id limit =
        (Except.error (Err.queryFailed emsg), [DBCall.commentsQuery s t])) := by
  constructor
  · intro db id limit s t rws cols rowsv hlim hp hc hall hr
    have hmap : fetch_table_comments db s t = Except.ok [] := by
      unfold fetch_table_comments
      rw [hc]
      show Except.ok (buildCommentMap rws) = Except.ok []
      rw [buildCommentMap_eq_nil rws hall]
    refine ⟨hmap, ?_⟩
    unfold read_table
    rw [if_neg hlim]
    simp only [hp, hmap, hr, display_cols_nil]
  · intro db id limit s t emsg hlim hp hcerr
    have hmap : fetch_table_comments db s t = Except.error emsg := by
      unfold fetch_table_comments
      rw [hcerr]
      rfl
    unfold read_table
    rw [if_neg hlim]
    simp only [hp, hmap]

/-- Witness for the amended C4, at a concrete database with only unusable
comments and at a concrete database whose metadata query raises. -/
theorem read_table_metadata_graceful_amended_witness :
    (fetch_table_comments dbNoComments "dbo" "Orders" = Except.ok [] ∧
      read_table dbNoComments "dbo.Orders" 100 =
        (Except.ok
          { table := "dbo.Orders"
            columns := ["OrderID", "CustomerID"]
            rows := [[("OrderID", Value.num 1), ("CustomerID", Value.str "ALFKI")]] },
          [DBCall.commentsQuery "dbo" "Orders", DBCall.rowQuery "dbo" "Orders" 100])) ∧
    read_table dbMetaFail "dbo.Customers" 50 =
      (Except.error (Err.queryFailed "metadata boom"),
        [DBCall.commentsQuery "dbo" "Customers"]) := by
  constructor
  · exact read_table_metadata_graceful_amended.1 dbNoComments "dbo.Orders" 100
      "dbo" "Orders" [("OrderID", none), ("CustomerID", some "  ")]
      ["OrderID", "CustomerID"] [[Value.num 1, Value.str "ALFKI"]]
      (by decide) rfl rfl
      (by
        intro r hr c hc
        rcases List.mem_cons.mp hr with e | e
        · subst e
          exact Option.noConfusion hc
        · have e2 : r = ("CustomerID", some "  ") := by simpa using e
          subst e2
          cases hc
          rfl)
      rfl
  · exact read_table_metadata_graceful_amended.2 dbMetaFail "dbo.Customers" 50
      "dbo" "Customers" "metadata boom" (by decide) rfl rfl

/-- Claim C5. Any identifier whose trimmed, percent-decoded form passes the
allow-list and contains a dot is split at the first dot, both halves trimmed
(provided neither half trims to empty, in which case §C1 applies). -/
theorem parse_schema_table_split_first_dot (s : String)
    (hmatch : safeMatch (normalizeRaw s) = true)
    (hdot : '.' ∈ normalizeRaw s)
    (hschema : pyStripList ((normalizeRaw s).takeWhile (fun c => !(c == '.'))) ≠ [])
    (htable :
      pyStripList (((normalizeRaw s).dropWhile (fun c => !(c == '.'))).tail) ≠ []) :
    parse_schema_table s =
      Except.ok
        (⟨pyStripList ((normalizeRaw s).takeWhile (fun c => !(c == '.')))⟩,
         ⟨pyStripList (((normalizeRaw s).dropWhile (fun c => !(c == '.'))).tail)⟩) := by
  have hsplit : splitOrDefault (normalizeRaw s) =
      ((normalizeRaw s).takeWhile (fun c => !(c == '.')),
        ((normalizeRaw s).dropWhile (fun c => !(c == '.'))).tail) := by
    unfold splitOrDefault
    rw [splitFirstDot_eq_some hdot]
  rw [parse_schema_table_eq, if_pos hmatch, hsplit]
  rw [if_neg]
  simp [List.isEmpty_iff, hschema, htable]

/-- Witness for C5 at the spec's example `"dbo.Order Details"`. -/
theorem parse_schema_table_split_first_dot_witness :
    parse_schema_table "dbo.Order Details" = Except.ok ("dbo", "Order Details") :=
  parse_schema_table_split_first_dot "dbo.Order Details"
    (by decide) (by decide) (by decide) (by decide)

/-- Claim C6. Any identifier whose trimmed, percent-decoded form passes the
allow-list and contains no dot gets the fixed default schema `dbo`, the whole
trimmed string becoming the table name (provided it does not trim to empty,
in which case §C1 applies). -/
theorem parse_schema_table_default_schema (s : String)
    (hmatch : safeMatch (normalizeRaw s) = true)
    (hdot : '.' ∉ normalizeRaw s)
    (htable : pyStripList (normalizeRaw s) ≠ []) :
    parse_schema_table s = Except.ok ("dbo", ⟨pyStripList (normalizeRaw s)⟩) := by
  have hsplit : splitOrDefault (normalizeRaw s) = ("dbo".data, normalizeRaw s) := by
    unfold splitOrDefault
    rw [splitFirstDot_eq_none hdot]
  rw [parse_schema_table_eq, if_pos hmatch, hsplit]
  rw [if_neg]
  · rfl
  · simp [List.isEmpty_iff, htable]
    decide

/-- Witness for C6 at the spec's example `"Orders"`. -/
theorem parse_schema_table_default_schema_witness :
    parse_schema_table "Orders" = Except.ok ("dbo", "Orders") :=
  parse_schema_table_default_schema "Orders" (by decide) (by decide) (by decide)

/-- Claim C7. Label merging is a pure per-column override: the output column
list has exactly the length of the input, each position holds
`labelMap.get(col) ?? col`, and a column with no mapping entry passes through
unchanged. -/
theorem display_cols_pure_override (m : List (String × String)) (cols : List String) :
    (display_cols m cols).length = cols.length ∧
    (∀ (i : Nat) (h : i < cols.length) (h2 : i < (display_cols m cols).length),
      (display_cols m cols).get ⟨i, h2⟩ =
        pyDictGet m (cols.get ⟨i, h⟩) (cols.get ⟨i, h⟩)) ∧
    (∀ c : String, (∀ q ∈ m, q.1 ≠ c) → pyDictGet m c c = c) := by
  refine ⟨by simp [display_cols], ?_, ?_⟩
  · intro i h h2
    simp [display_cols]
  · intro c hc
    unfold pyDictGet
    have hnone : List.lookup c m = none := by
      rw [List.lookup_eq_none_iff]
      intro p hp
      rw [bne_iff_ne]
      exact fun e => hc p hp e.symm
    rw [hnone]

/-- Witness for C7 at a concrete partial label map. -/
theorem display_cols_pure_override_witness :
    (display_cols [("a", "x")] ["a", "b"]).get ⟨0, by decide⟩ =
      pyDictGet [("a", "x")] (["a", "b"].get ⟨0, by decide⟩)
        (["a", "b"].get ⟨0, by decide⟩) ∧
    pyDictGet [("a", "x")] "b" "b" = "b" :=
  ⟨(display_cols_pure_override [("a", "x")] ["a", "b"]).2.1 0 (by decide) (by decide),
   (display_cols_pure_override [("a", "x")] ["a", "b"]).2.2 "b" (by decide)⟩

/-- Claim C8. The endpoint is deterministic in the database state: its entire
answer is a function of the parsed identifier's comment rows and row-query
result, so two databases that agree there — in particular the same unchanged
database queried twice — produce identical columns and rows. -/
theorem read_table_deterministic (db1 db2 : DB) (id : String) (limit : Int)
    (s t : String)
    (hp : parse_schema_table id = Except.ok (s, t))
    (hc : db1.comments s t = db2.comments s t)
    (hr : db1.rows s t limit = db2.rows s t limit) :
    read_table db1 id limit = read_table db2 id limit := by
  unfold read_table
  by_cases hl : limit < 1 ∨ limit > 5000
  · rw [if_pos hl, if_pos hl]
  · rw [if_neg hl, if_neg hl]
    simp only [hp, fetch_table_comments, hc, hr]

/-- Witness for C8: two databases that agree on the `dbo.Orders` comments and
rows (but on nothing else) answer the request identically. -/
theorem read_table_deterministic_witness :
    read_table dbSample "dbo.Orders" 100 = read_table dbSampleRestricted "dbo.Orders" 100 :=
  read_table_deterministic dbSample dbSampleRestricted "dbo.Orders" 100 "dbo" "Orders"
    rfl rfl rfl

/-- Claim C9. In a returned row dict, each display label maps to the cell of the
last column bearing it (duplicate labels collapse, so a row can have fewer
keys than there are columns, never more); when the labels are pairwise
distinct the row is exactly the one-to-one label/value pairing, and the
`main.py` per-row loop is the same construction over relabelled columns. -/
theorem buildRow_duplicate_labels (labels : List String) (cells : List Value)
    (hlen : labels.length = cells.length) :
    (∀ k, List.lookup k (buildRow labels cells) =
      ((labels.zip cells).reverse.find? (fun p => p.1 == k)).map Prod.snd) ∧
    (buildRow labels cells).length ≤ labels.length ∧
    (labels.Nodup → buildRow labels cells = labels.zip cells) ∧
    (∀ (col_map : List (String × String)) (row : List Value),
      run_query_item col_map labels row =
        buildRow (labels.map (fun c => pyDictGet col_map c c)) row) := by
  refine ⟨lookup_buildRow labels cells, length_buildRow labels cells, ?_, ?_⟩
  · intro hnd
    exact buildRow_of_nodup labels cells hnd hlen
  · intro col_map row
    simp [run_query_item, buildRow, List.zip_map_left, List.foldl_map, Prod.map]

/-- Witness for C9: duplicate labels keep only the last column's value and
shrink the key set; distinct labels give the full pairing. -/
theorem buildRow_duplicate_labels_witness :
    List.lookup "a" (buildRow ["a", "a"] [Value.num 1, Value.num 2]) =
      some (Value.num 2) ∧
    (buildRow ["a", "a"] [Value.num 1, Value.num 2]).length = 1 ∧
    buildRow ["a", "b"] [Value.num 1, Value.num 2] =
      [("a", Value.num 1), ("b", Value.num 2)] := by
  refine ⟨?_, by decide, ?_⟩
  · rw [(buildRow_duplicate_labels ["a", "a"] [Value.num 1, Value.num 2]
      (by decide)).1 "a"]
    decide
  · exact (buildRow_duplicate_labels ["a", "b"] [Value.num 1, Value.num 2]
      (by decide)).2.2.1 (by decide)

/-- Claim C10. Every label kept by the metadata resolver is nonempty, carries no
surrounding whitespace (stripping it again changes nothing), and is the
stripped text of an actually stored non-blank comment of that column; NULL,
empty and whitespace-only comments contribute nothing to the mapping. -/
theorem buildCommentMap_labels_stripped (db : DB) (s t : String)
    (rws : List (String × Option String))
    (hc : db.comments s t = Except.ok rws) :
    fetch_table_comments db s t = Except.ok (buildCommentMap rws) ∧
    ∀ kv ∈ buildCommentMap rws,
      kv.2 ≠ "" ∧ pyStrip kv.2 = kv.2 ∧
      ∃ c, (kv.1, some c) ∈ rws ∧ pyStrip c ≠ "" ∧ kv.2 = pyStrip c := by
  constructor
  · unfold fetch_table_comments
    rw [hc]
    rfl
  · intro kv hkv
    obtain ⟨c, hmem, hne, hval⟩ := mem_buildCommentMap rws hkv
    refine ⟨?_, ?_, c, hmem, hne, hval⟩
    · rw [hval]
      exact hne
    · rw [hval, pyStrip_idem]

/-- Witness for C10 at the sample comment rows: the one usable comment is
kept stripped, the NULL and whitespace-only ones are dropped. -/
theorem buildCommentMap_labels_stripped_witness :
    fetch_table_comments dbSample "dbo" "Orders" =
      Except.ok [("OrderID", "訂單編號")] ∧
    ("OrderID", "訂單編號").2 ≠ "" ∧
    pyStrip ("OrderID", "訂單編號").2 = ("OrderID", "訂單編號").2 ∧
    ∃ c, (("OrderID", "訂單編號").1, some c) ∈ sampleCommentRows ∧
      pyStrip c ≠ "" ∧ ("OrderID", "訂單編號").2 = pyStrip c := by
  have h := buildCommentMap_labels_stripped dbSample "dbo" "Orders"
    sampleCommentRows rfl
  have hm := h.2 ("OrderID", "訂單編號") (by decide)
  exact ⟨h.1, hm.1, hm.2.1, hm.2.2⟩

end DbWeb
